import Mathlib

/-!
# A verification development of the `tx-toy` transaction engine

Shallow embedding of the sources `src/transaction.rs`, `src/account_state.rs`
and `src/main.rs`: a ledger-replay engine applying typed events
(deposit, withdrawal, dispute, resolve, chargeback) to per-client accounts.

Monetary amounts are `f64` in the source; the spec (§9) treats binary floating
point as a defect and mandates an exact fixed-point decimal representation
(scaled integers at 4 decimal digits), so amounts are embedded as `Amount`,
an integer counting units of the fixed decimal precision; addition,
subtraction and order on it are exactly the fixed-point operations the engine
uses.  `HashMap<TxId, Deposit>` and `HashSet<TxId>` are
embedded as association lists / lists with the corresponding insert, remove,
lookup and contains operations.  Functions taking `&mut AccountState` and
returning `Result<(), TxError>` are embedded as functions returning the pair
`Except TxError Unit × AccountState`: the returned account is the state of the
`&mut` reference when the function returns, on the error paths as well.
-/

/-- `type ClientId = u16;` (main.rs). -/
abbrev ClientId := Nat

/-- `type TxId = u32;` (main.rs). -/
abbrev TxId := Nat

/-- A monetary amount: the exact fixed-point decimal value mandated by the
spec, represented by the integer count of units at the fixed decimal
precision (§9: scaled integers at 4 decimal digits).  The engine only adds,
subtracts and compares amounts, and those operations commute with the
scaling. -/
abbrev Amount := ℤ

/-- `enum TxError { NotEnoughAvailableFunds, AmountMandatory }` (transaction.rs). -/
inductive TxError where
  | NotEnoughAvailableFunds
  | AmountMandatory
deriving DecidableEq, Repr

/-- `struct Deposit { id: TxId, amount: f64 }` (transaction.rs). -/
structure Deposit where
  id : TxId
  amount : Amount
deriving DecidableEq, Repr

/-- `HashMap::get` on the deposit history. -/
def histLookup (m : List (TxId × Deposit)) (id : TxId) : Option Deposit :=
  match m with
  | [] => none
  | (k, v) :: rest => if k = id then some v else histLookup rest id

/-- `HashMap::insert` on the deposit history: at most one entry per key,
the new binding replaces any old one. -/
def histInsert (m : List (TxId × Deposit)) (id : TxId) (tx : Deposit) :
    List (TxId × Deposit) :=
  (id, tx) :: m.filter (fun p => p.1 ≠ id)

/-- `HashMap::remove` on the deposit history. -/
def histRemove (m : List (TxId × Deposit)) (id : TxId) : List (TxId × Deposit) :=
  m.filter (fun p => p.1 ≠ id)

/-- `HashSet::contains` on the disputed-transaction set. -/
def setContains (s : List TxId) (id : TxId) : Bool :=
  match s with
  | [] => false
  | k :: rest => if k = id then true else setContains rest id

/-- `HashSet::insert` on the disputed-transaction set. -/
def setInsert (s : List TxId) (id : TxId) : List TxId :=
  if setContains s id then s else id :: s

/-- `HashSet::remove` on the disputed-transaction set. -/
def setRemove (s : List TxId) (id : TxId) : List TxId :=
  s.filter (fun k => k ≠ id)

/-- `struct AccountState` (account_state.rs): balances, lock flag, the history
of deposit transactions and the set of disputed transactions. -/
structure AccountState where
  client : ClientId
  available : Amount
  held : Amount
  total : Amount
  locked : Bool
  hist : List (TxId × Deposit)
  disputed_tx : List TxId
deriving DecidableEq, Repr

namespace AccountState

/-- `AccountState::new` (account_state.rs): zeroed balances, unlocked,
empty history and disputed set. -/
def new (client : ClientId) : AccountState :=
  { client := client
    available := 0
    held := 0
    total := 0
    locked := false
    hist := []
    disputed_tx := [] }

/-- `AccountState::register_deposit` (account_state.rs). -/
def register_deposit (acc : AccountState) (id : TxId) (tx : Deposit) : AccountState :=
  { acc with hist := histInsert acc.hist id tx }

/-- `AccountState::register_dispute` (account_state.rs). -/
def register_dispute (acc : AccountState) (id : TxId) : AccountState :=
  { acc with disputed_tx := setInsert acc.disputed_tx id }

/-- `AccountState::unregister_dispute` (account_state.rs): removes the id from
the disputed set and removes the deposit from the history. -/
def unregister_dispute (acc : AccountState) (id : TxId) : AccountState :=
  { acc with
    disputed_tx := setRemove acc.disputed_tx id
    hist := histRemove acc.hist id }

end AccountState

namespace Deposit

/-- `Deposit::create` (transaction.rs): the amount is mandatory. -/
def create (id : TxId) (amount : Option Amount) : Except TxError Deposit :=
  match amount with
  | none => .error .AmountMandatory
  | some a => .ok { id := id, amount := a }

/-- `Deposit::apply` (transaction.rs): credit available and total, then record
the transaction in the account history. -/
def apply (tx : Deposit) (acc : AccountState) : Except TxError Unit × AccountState :=
  let acc := { acc with
    available := acc.available + tx.amount
    total := acc.total + tx.amount }
  (.ok (), acc.register_deposit tx.id tx)

end Deposit

/-- `struct Withdrawal { amount: f64 }` (transaction.rs). -/
structure Withdrawal where
  amount : Amount
deriving DecidableEq, Repr

namespace Withdrawal

/-- `Withdrawal::create` (transaction.rs): the amount is mandatory. -/
def create (_id : TxId) (amount : Option Amount) : Except TxError Withdrawal :=
  match amount with
  | none => .error .AmountMandatory
  | some a => .ok { amount := a }

/-- `Withdrawal::apply` (transaction.rs): fails with no state change when the
available funds are below the requested amount, otherwise debits available
and total. -/
def apply (tx : Withdrawal) (acc : AccountState) : Except TxError Unit × AccountState :=
  if acc.available < tx.amount then
    (.error .NotEnoughAvailableFunds, acc)
  else
    (.ok (), { acc with
      available := acc.available - tx.amount
      total := acc.total - tx.amount })

end Withdrawal

/-- `struct Dispute { id: TxId }` (transaction.rs). -/
structure Dispute where
  id : TxId
deriving DecidableEq, Repr

namespace Dispute

/-- `Dispute::create` (transaction.rs): never fails, the amount is ignored. -/
def create (id : TxId) (_amount : Option Amount) : Except TxError Dispute :=
  .ok { id := id }

/-- `Dispute::apply` (transaction.rs): when the id is in the history, move the
deposited amount from available to held and register the dispute; otherwise
the event is ignored. -/
def apply (tx : Dispute) (acc : AccountState) : Except TxError Unit × AccountState :=
  match histLookup acc.hist tx.id with
  | some dep =>
      let acc := { acc with
        available := acc.available - dep.amount
        held := acc.held + dep.amount }
      (.ok (), acc.register_dispute tx.id)
  | none => (.ok (), acc)

end Dispute

/-- `struct Resolve { id: TxId }` (transaction.rs). -/
structure Resolve where
  id : TxId
deriving DecidableEq, Repr

namespace Resolve

/-- `Resolve::create` (transaction.rs): never fails, the amount is ignored. -/
def create (id : TxId) (_amount : Option Amount) : Except TxError Resolve :=
  .ok { id := id }

/-- `Resolve::apply` (transaction.rs): when the id is disputed and in the
history, move the amount back from held to available and unregister the
dispute; otherwise the event is ignored. -/
def apply (tx : Resolve) (acc : AccountState) : Except TxError Unit × AccountState :=
  if setContains acc.disputed_tx tx.id then
    match histLookup acc.hist tx.id with
    | some dep =>
        let acc := { acc with
          available := acc.available + dep.amount
          held := acc.held - dep.amount }
        (.ok (), acc.unregister_dispute tx.id)
    | none => (.ok (), acc)
  else (.ok (), acc)

end Resolve

/-- `struct Chargeback { id: TxId }` (transaction.rs). -/
structure Chargeback where
  id : TxId
deriving DecidableEq, Repr

namespace Chargeback

/-- `Chargeback::create` (transaction.rs): never fails, the amount is ignored. -/
def create (id : TxId) (_amount : Option Amount) : Except TxError Chargeback :=
  .ok { id := id }

/-- `Chargeback::apply` (transaction.rs): when the id is disputed and in the
history, lock the account, debit held and total by the deposited amount and
unregister the dispute; otherwise the event is ignored. -/
def apply (tx : Chargeback) (acc : AccountState) : Except TxError Unit × AccountState :=
  if setContains acc.disputed_tx tx.id then
    match histLookup acc.hist tx.id with
    | some dep =>
        let acc := { acc with
          locked := true
          total := acc.total - dep.amount
          held := acc.held - dep.amount }
        (.ok (), acc.unregister_dispute tx.id)
    | none => (.ok (), acc)
  else (.ok (), acc)

end Chargeback

/-- `enum Type { Deposit, Dispute, Withdraw, Resolve, Chargeback }` (main.rs). -/
inductive TxType where
  | deposit
  | dispute
  | withdraw
  | resolve
  | chargeback
deriving DecidableEq, Repr

/-- `struct Record { _type, client, tx, amount }` (main.rs): one deserialized
input event. -/
structure TxRecord where
  ty : TxType
  client : ClientId
  tx : TxId
  amount : Option Amount
deriving DecidableEq, Repr

namespace AccountState

/-- The body of the per-record loop of `rd_from_stdin` (main.rs) for the
account addressed by the record: a locked account skips the event entirely
(before the transaction is even created); otherwise the transaction is created
and applied, with creation errors propagated before any mutation. -/
def applyRecord (acc : AccountState) (r : TxRecord) : Except TxError Unit × AccountState :=
  if acc.locked then (.ok (), acc)
  else
    match r.ty with
    | .deposit =>
        match Deposit.create r.tx r.amount with
        | .ok tx => tx.apply acc
        | .error e => (.error e, acc)
    | .withdraw =>
        match Withdrawal.create r.tx r.amount with
        | .ok tx => tx.apply acc
        | .error e => (.error e, acc)
    | .dispute =>
        match Dispute.create r.tx r.amount with
        | .ok tx => tx.apply acc
        | .error e => (.error e, acc)
    | .resolve =>
        match Resolve.create r.tx r.amount with
        | .ok tx => tx.apply acc
        | .error e => (.error e, acc)
    | .chargeback =>
        match Chargeback.create r.tx r.amount with
        | .ok tx => tx.apply acc
        | .error e => (.error e, acc)

/-- Iterating `applyRecord` over a record sequence, aborting on the first
error as `rd_from_stdin` does (the `?` operator). -/
def applyRecords (acc : AccountState) : List TxRecord → Except TxError AccountState
  | [] => .ok acc
  | r :: rs =>
      match acc.applyRecord r with
      | (.ok _, acc') => acc'.applyRecords rs
      | (.error e, _) => .error e

end AccountState

/-- `u16::MAX = 65535`: the length of the preallocated accounts vector
`(0..u16::MAX).map(|_| None).collect()` in `rd_from_stdin` (main.rs).  Note the
range is half-open, so the vector has 65535 slots, not 65536. -/
def accountsLen : Nat := 65535

/-- `client as usize - 1` (main.rs line 69) with `usize` wrap-around
semantics: for `client = 0` the subtraction underflows to `2^64 - 1`. -/
def usizeSub1 (client : Nat) : Nat :=
  (client + (2 ^ 64 - 1)) % 2 ^ 64

/-- The slot of the accounts vector addressed by a client id in
`rd_from_stdin`: `accounts[client as usize - 1]`.  `none` means the index is
out of bounds, which panics in the source. -/
def accountSlot (client : ClientId) : Option Nat :=
  let i := usizeSub1 client
  if i < accountsLen then some i else none

/-- Lookup in the ledger, an association list from vector slot to the account
stored there (`None` slots are simply absent). -/
def ledgerLookup (ledger : List (Nat × AccountState)) (slot : Nat) : Option AccountState :=
  match ledger with
  | [] => none
  | (k, v) :: rest => if k = slot then some v else ledgerLookup rest slot

/-- Store an account into a ledger slot, replacing any previous occupant. -/
def ledgerStore (ledger : List (Nat × AccountState)) (slot : Nat) (acc : AccountState) :
    List (Nat × AccountState) :=
  (slot, acc) :: ledger.filter (fun p => p.1 ≠ slot)

/-- A whole-run failure of `rd_from_stdin`: either a transaction error
propagated by `?`, or a panic from an out-of-bounds vector index. -/
inductive RunError where
  | panic
  | tx (e : TxError)
deriving DecidableEq, Repr

/-- One iteration of the loop of `rd_from_stdin` (main.rs): resolve the
addressed slot (panicking on an out-of-bounds index), fetch the account or
create a fresh one on first reference, skip the event when the account is
locked, otherwise create and apply the transaction, storing the mutated
account back into its slot. -/
def runStep (ledger : List (Nat × AccountState)) (r : TxRecord) :
    Except RunError (List (Nat × AccountState)) :=
  match accountSlot r.client with
  | none => .error .panic
  | some slot =>
      let acc :=
        match ledgerLookup ledger slot with
        | some acc => acc
        | none => AccountState.new r.client
      match acc.applyRecord r with
      | (.ok _, acc') => .ok (ledgerStore ledger slot acc')
      | (.error e, _) => .error (.tx e)

/-- `rd_from_stdin` (main.rs): fold the input records over an initially empty
ledger, aborting the whole run on the first error. -/
def runRecords (ledger : List (Nat × AccountState)) :
    List TxRecord → Except RunError (List (Nat × AccountState))
  | [] => .ok ledger
  | r :: rs =>
      match runStep ledger r with
      | .ok ledger' => runRecords ledger' rs
      | .error e => .error e

/-! ## Derived state predicates and concrete fixtures -/

/-- The balance invariant: `total == available + held`. -/
def AccountState.balanced (acc : AccountState) : Prop :=
  acc.total = acc.available + acc.held

/-- Every transaction id in the disputed set has an entry in the deposit
history (the comment on `disputed_tx` in account_state.rs: by construction,
disputed transactions are registered in `hist`). -/
def AccountState.disputedWf (acc : AccountState) : Prop :=
  ∀ id, setContains acc.disputed_tx id = true → (histLookup acc.hist id).isSome = true

/-- The state of an account after depositing amount `A` under id `T`, then
disputing `T`, then resolving `T` (each of the three steps succeeds
unconditionally). -/
def depositDisputeResolve (acc : AccountState) (A : Amount) (T : TxId) : AccountState :=
  (Resolve.apply ⟨T⟩ (Dispute.apply ⟨T⟩ (Deposit.apply ⟨T, A⟩ acc).2).2).2

/-- The end-to-end fixture of spec §8: two deposits and a withdrawal for
client 1, a deposit for client 2, then a dispute of client 2's deposit. -/
def c7events : List TxRecord :=
  [⟨.deposit, 1, 1, some 5⟩, ⟨.deposit, 1, 2, some 4⟩, ⟨.withdraw, 1, 3, some 9⟩,
   ⟨.deposit, 2, 4, some 10⟩, ⟨.dispute, 2, 4, none⟩]

/-- The account reached from a fresh account for client 1 by a 5-unit deposit
under id 1 followed by a dispute of id 1. -/
def c8acc : AccountState := ⟨1, 0, 5, 5, false, [(1, ⟨1, 5⟩)], [1]⟩

/-! ## Lemmas about the history map and the disputed set -/

theorem histLookup_histInsert_self (m : List (TxId × Deposit)) (id : TxId) (tx : Deposit) :
    histLookup (histInsert m id tx) id = some tx := by
  simp [histInsert, histLookup]

theorem histLookup_histRemove_self (m : List (TxId × Deposit)) (id : TxId) :
    histLookup (histRemove m id) id = none := by
  induction m with
  | nil => rfl
  | cons p rest ih =>
      by_cases h : p.1 = id
      · simpa [histRemove, List.filter_cons, h] using ih
      · simpa [histRemove, List.filter_cons, h, histLookup] using ih

theorem setContains_setRemove_self (s : List TxId) (id : TxId) :
    setContains (setRemove s id) id = false := by
  induction s with
  | nil => rfl
  | cons k rest ih =>
      by_cases h : k = id
      · simpa [setRemove, List.filter_cons, h] using ih
      · simpa [setRemove, List.filter_cons, h, setContains] using ih

theorem setContains_setInsert_self (s : List TxId) (id : TxId) :
    setContains (setInsert s id) id = true := by
  by_cases h : setContains s id
  · simp [setInsert, h]
  · simp [setInsert, h, setContains]

theorem setInsert_of_contains (s : List TxId) (id : TxId)
    (h : setContains s id = true) : setInsert s id = s := by
  simp [setInsert, h]

theorem histRemove_cons (p : TxId × Deposit) (rest : List (TxId × Deposit)) (T : TxId) :
    histRemove (p :: rest) T =
      if p.1 = T then histRemove rest T else p :: histRemove rest T := by
  by_cases h : p.1 = T <;> simp [histRemove, List.filter_cons, h]

theorem setRemove_cons (k : TxId) (rest : List TxId) (T : TxId) :
    setRemove (k :: rest) T =
      if k = T then setRemove rest T else k :: setRemove rest T := by
  by_cases h : k = T <;> simp [setRemove, List.filter_cons, h]

theorem histLookup_histRemove_ne (m : List (TxId × Deposit)) (T id : TxId)
    (h : id ≠ T) : histLookup (histRemove m T) id = histLookup m id := by
  induction m with
  | nil => rfl
  | cons p rest ih =>
      rw [histRemove_cons]
      by_cases hp : p.1 = T
      · have hne : p.1 ≠ id := by rw [hp]; exact Ne.symm h
        rw [if_pos hp, ih]
        simp [histLookup, hne]
      · rw [if_neg hp]
        by_cases hid : p.1 = id <;> simp [histLookup, hid, ih]

theorem histLookup_histInsert (m : List (TxId × Deposit)) (T id : TxId) (tx : Deposit) :
    histLookup (histInsert m T tx) id =
      if T = id then some tx else histLookup m id := by
  by_cases h : T = id
  · simp [histInsert, histLookup, h]
  · have hne : id ≠ T := Ne.symm h
    have hcons : histInsert m T tx = (T, tx) :: histRemove m T := rfl
    rw [hcons]
    simp only [histLookup, h, if_false]
    exact histLookup_histRemove_ne m T id hne

theorem setContains_setRemove_ne (s : List TxId) (T id : TxId)
    (h : id ≠ T) : setContains (setRemove s T) id = setContains s id := by
  induction s with
  | nil => rfl
  | cons k rest ih =>
      rw [setRemove_cons]
      by_cases hk : k = T
      · have hne : k ≠ id := by rw [hk]; exact Ne.symm h
        rw [if_pos hk, ih]
        simp [setContains, hne]
      · rw [if_neg hk]
        by_cases hid : k = id <;> simp [setContains, hid, ih]

theorem setContains_setInsert (s : List TxId) (T id : TxId) :
    setContains (setInsert s T) id = true ↔ (T = id ∨ setContains s id = true) := by
  by_cases h : setContains s T
  · rw [setInsert, if_pos h]
    constructor
    · intro hc
      exact Or.inr hc
    · rintro (rfl | hc)
      · exact h
      · exact hc
  · rw [setInsert, if_neg h]
    by_cases hT : T = id <;> simp [setContains, hT]

/-- A dispute whose id is absent from the history is ignored: success and no
state change. -/
theorem Dispute.apply_not_in_hist (acc : AccountState) (T : TxId)
    (h : histLookup acc.hist T = none) : Dispute.apply ⟨T⟩ acc = (.ok (), acc) := by
  simp [Dispute.apply, h]

/-! ## Preservation of the balance invariant by each transaction -/

theorem deposit_apply_balanced (tx : Deposit) (acc : AccountState)
    (h : acc.balanced) : (tx.apply acc).2.balanced := by
  simp only [AccountState.balanced, Deposit.apply, AccountState.register_deposit] at h ⊢
  rw [h]; ring

theorem withdrawal_apply_balanced (tx : Withdrawal) (acc : AccountState)
    (h : acc.balanced) : (tx.apply acc).2.balanced := by
  unfold AccountState.balanced at h ⊢
  unfold Withdrawal.apply
  split
  · exact h
  · simp only
    rw [h]; ring

theorem dispute_apply_balanced (tx : Dispute) (acc : AccountState)
    (h : acc.balanced) : (tx.apply acc).2.balanced := by
  unfold AccountState.balanced at h ⊢
  unfold Dispute.apply
  cases hh : histLookup acc.hist tx.id with
  | some dep =>
      simp only [AccountState.register_dispute]
      rw [h]; ring
  | none => exact h

theorem resolve_apply_balanced (tx : Resolve) (acc : AccountState)
    (h : acc.balanced) : (tx.apply acc).2.balanced := by
  unfold AccountState.balanced at h ⊢
  unfold Resolve.apply
  split
  · cases hh : histLookup acc.hist tx.id with
    | some dep =>
        simp only [AccountState.unregister_dispute]
        rw [h]; ring
    | none => exact h
  · exact h

theorem chargeback_apply_balanced (tx : Chargeback) (acc : AccountState)
    (h : acc.balanced) : (tx.apply acc).2.balanced := by
  unfold AccountState.balanced at h ⊢
  unfold Chargeback.apply
  split
  · cases hh : histLookup acc.hist tx.id with
    | some dep =>
        simp only [AccountState.unregister_dispute]
        rw [h]; ring
    | none => exact h
  · exact h

theorem applyRecord_balanced (acc : AccountState) (r : TxRecord)
    (h : acc.balanced) : (acc.applyRecord r).2.balanced := by
  unfold AccountState.applyRecord
  by_cases hl : acc.locked
  · simpa [hl]
  · cases hty : r.ty <;> cases hamt : r.amount <;>
      simp only [hl, Bool.false_eq_true, if_false, Deposit.create, Withdrawal.create,
        Dispute.create, Resolve.create, Chargeback.create] <;>
      first
        | exact h
        | exact deposit_apply_balanced _ acc h
        | exact withdrawal_apply_balanced _ acc h
        | exact dispute_apply_balanced _ acc h
        | exact resolve_apply_balanced _ acc h
        | exact chargeback_apply_balanced _ acc h

theorem applyRecords_balanced (rs : List TxRecord) (acc acc' : AccountState)
    (hinv : acc.balanced) (h : acc.applyRecords rs = .ok acc') :
    acc'.balanced := by
  induction rs generalizing acc with
  | nil =>
      unfold AccountState.applyRecords at h
      cases h
      exact hinv
  | cons r rs ih =>
      unfold AccountState.applyRecords at h
      cases hstep : acc.applyRecord r with
      | mk u acc1 =>
          rw [hstep] at h
          cases u with
          | ok v =>
              have h1 : acc1.balanced := by
                have hb := applyRecord_balanced acc r hinv
                rwa [hstep] at hb
              exact ih acc1 h1 h
          | error e => cases h

/-! ## Preservation of the dispute bookkeeping invariant -/

theorem deposit_apply_disputedWf (tx : Deposit) (acc : AccountState)
    (h : acc.disputedWf) : (tx.apply acc).2.disputedWf := by
  intro id hid
  simp only [Deposit.apply, AccountState.register_deposit] at hid ⊢
  rw [histLookup_histInsert]
  by_cases he : tx.id = id
  · simp [he]
  · simp only [he, if_false]
    exact h id hid

theorem withdrawal_apply_disputedWf (tx : Withdrawal) (acc : AccountState)
    (h : acc.disputedWf) : (tx.apply acc).2.disputedWf := by
  unfold Withdrawal.apply
  split
  · exact h
  · exact h

theorem dispute_apply_disputedWf (tx : Dispute) (acc : AccountState)
    (h : acc.disputedWf) : (tx.apply acc).2.disputedWf := by
  unfold Dispute.apply
  cases hh : histLookup acc.hist tx.id with
  | some dep =>
      intro id hid
      simp only [AccountState.register_dispute] at hid ⊢
      rcases (setContains_setInsert acc.disputed_tx tx.id id).mp hid with rfl | hmem
      · rw [hh]; rfl
      · exact h id hmem
  | none => exact h

theorem AccountState.unregister_dispute_disputedWf (acc : AccountState) (T : TxId)
    (h : acc.disputedWf) : (acc.unregister_dispute T).disputedWf := by
  intro id hid
  simp only [AccountState.unregister_dispute] at hid ⊢
  by_cases he : id = T
  · rw [he, setContains_setRemove_self] at hid
    cases hid
  · rw [setContains_setRemove_ne _ _ _ he] at hid
    rw [histLookup_histRemove_ne _ _ _ he]
    exact h id hid

theorem resolve_apply_disputedWf (tx : Resolve) (acc : AccountState)
    (h : acc.disputedWf) : (tx.apply acc).2.disputedWf := by
  unfold Resolve.apply
  split
  · cases hh : histLookup acc.hist tx.id with
    | some dep =>
        exact AccountState.unregister_dispute_disputedWf _ tx.id (fun id hid => h id hid)
    | none => exact h
  · exact h

theorem chargeback_apply_disputedWf (tx : Chargeback) (acc : AccountState)
    (h : acc.disputedWf) : (tx.apply acc).2.disputedWf := by
  unfold Chargeback.apply
  split
  · cases hh : histLookup acc.hist tx.id with
    | some dep =>
        exact AccountState.unregister_dispute_disputedWf _ tx.id (fun id hid => h id hid)
    | none => exact h
  · exact h

theorem applyRecord_disputedWf (acc : AccountState) (r : TxRecord)
    (h : acc.disputedWf) : (acc.applyRecord r).2.disputedWf := by
  unfold AccountState.applyRecord
  by_cases hl : acc.locked
  · simpa [hl]
  · cases hty : r.ty <;> cases hamt : r.amount <;>
      simp only [hl, Bool.false_eq_true, if_false, Deposit.create, Withdrawal.create,
        Dispute.create, Resolve.create, Chargeback.create] <;>
      first
        | exact h
        | exact deposit_apply_disputedWf _ acc h
        | exact withdrawal_apply_disputedWf _ acc h
        | exact dispute_apply_disputedWf _ acc h
        | exact resolve_apply_disputedWf _ acc h
        | exact chargeback_apply_disputedWf _ acc h

theorem applyRecords_disputedWf (rs : List TxRecord) (acc acc' : AccountState)
    (hwf : acc.disputedWf) (h : acc.applyRecords rs = .ok acc') :
    acc'.disputedWf := by
  induction rs generalizing acc with
  | nil =>
      unfold AccountState.applyRecords at h
      cases h
      exact hwf
  | cons r rs ih =>
      unfold AccountState.applyRecords at h
      cases hstep : acc.applyRecord r with
      | mk u acc1 =>
          rw [hstep] at h
          cases u with
          | ok v =>
              have h1 : acc1.disputedWf := by
                have hb := applyRecord_disputedWf acc r hwf
                rwa [hstep] at hb
              exact ih acc1 h1 h
          | error e => cases h

/-! ## The claims -/

/-- Claim C1: for every account satisfying the balance invariant
`total == available + held` — the fresh zeroed account in particular — and
every sequence of applied events, the account reached after each applied
event satisfies `total == available + held` exactly; the invariant is
preserved by Deposit, Withdrawal, Dispute, Resolve and Chargeback alike. -/
theorem balance_invariant (acc : AccountState) (rs : List TxRecord) (acc' : AccountState)
    (hinv : acc.total = acc.available + acc.held)
    (h : acc.applyRecords rs = .ok acc') :
    acc'.total = acc'.available + acc'.held :=
  applyRecords_balanced rs acc acc' hinv h

/-- Witness for claim C1: the fresh account for client 1, after a 10-unit
deposit under id 4 followed by a dispute of id 4, is balanced. -/
theorem balance_invariant_witness :
    (⟨1, 0, 10, 10, false, [(4, ⟨4, 10⟩)], [4]⟩ : AccountState).total =
      (⟨1, 0, 10, 10, false, [(4, ⟨4, 10⟩)], [4]⟩ : AccountState).available +
      (⟨1, 0, 10, 10, false, [(4, ⟨4, 10⟩)], [4]⟩ : AccountState).held :=
  balance_invariant (AccountState.new 1)
    [⟨.deposit, 1, 4, some 10⟩, ⟨.dispute, 1, 4, none⟩]
    ⟨1, 0, 10, 10, false, [(4, ⟨4, 10⟩)], [4]⟩ (by decide) rfl

/-- Claim C2: once an account's locked flag is true, no subsequent event of
any kind mutates it: every later record addressed to it — a further deposit
and even a malformed record with a missing amount included — is silently
dropped, with no error and no state change, for a sequence of any length
(the lock is permanent, since the unchanged account is still locked). -/
theorem locked_account_frozen (acc : AccountState) (rs : List TxRecord)
    (h : acc.locked = true) :
    acc.applyRecords rs = .ok acc := by
  induction rs with
  | nil => rfl
  | cons r rs ih =>
      unfold AccountState.applyRecords
      simp [AccountState.applyRecord, h, ih]

/-- Witness for claim C2: a locked account is unchanged by a sequence holding
a valid deposit, a malformed deposit with no amount, an overdrawing
withdrawal, a dispute, a resolve and a chargeback. -/
theorem locked_account_frozen_witness :
    AccountState.applyRecords ⟨1, 3, 0, 3, true, [], []⟩
      [⟨.deposit, 1, 9, some 7⟩, ⟨.deposit, 1, 10, none⟩, ⟨.withdraw, 1, 11, some 100⟩,
       ⟨.dispute, 1, 9, none⟩, ⟨.resolve, 1, 9, none⟩, ⟨.chargeback, 1, 9, none⟩] =
      .ok ⟨1, 3, 0, 3, true, [], []⟩ :=
  locked_account_frozen ⟨1, 3, 0, 3, true, [], []⟩
    [⟨.deposit, 1, 9, some 7⟩, ⟨.deposit, 1, 10, none⟩, ⟨.withdraw, 1, 11, some 100⟩,
     ⟨.dispute, 1, 9, none⟩, ⟨.resolve, 1, 9, none⟩, ⟨.chargeback, 1, 9, none⟩] rfl

/-- Claim C3: for an account holding a deposit `dep` under id `T` that is
currently disputed, `Chargeback(T)` succeeds and decreases held by the
deposited amount, decreases total by the same amount, leaves available
unchanged, sets the locked flag, and removes `T` from both the history and
the disputed set. -/
theorem chargeback_spec (acc : AccountState) (T : TxId) (dep : Deposit)
    (hh : histLookup acc.hist T = some dep)
    (hd : setContains acc.disputed_tx T = true) :
    Chargeback.apply ⟨T⟩ acc =
      (.ok (), { acc with
        locked := true
        total := acc.total - dep.amount
        held := acc.held - dep.amount
        disputed_tx := setRemove acc.disputed_tx T
        hist := histRemove acc.hist T }) ∧
    (Chargeback.apply ⟨T⟩ acc).2.available = acc.available ∧
    histLookup (Chargeback.apply ⟨T⟩ acc).2.hist T = none ∧
    setContains (Chargeback.apply ⟨T⟩ acc).2.disputed_tx T = false := by
  refine ⟨?_, ?_, ?_, ?_⟩ <;>
    simp [Chargeback.apply, hd, hh, AccountState.unregister_dispute,
      histLookup_histRemove_self, setContains_setRemove_self]

/-- Witness for claim C3: charging back the disputed 5-unit deposit with id 1
locks the account, zeroes held and total, and clears the bookkeeping. -/
theorem chargeback_spec_witness :
    Chargeback.apply ⟨1⟩ ⟨1, 0, 5, 5, false, [(1, ⟨1, 5⟩)], [1]⟩ =
      (.ok (), { (⟨1, 0, 5, 5, false, [(1, ⟨1, 5⟩)], [1]⟩ : AccountState) with
        locked := true
        total := 5 - 5
        held := 5 - 5
        disputed_tx := setRemove [1] 1
        hist := histRemove [(1, ⟨1, 5⟩)] 1 }) ∧
    (Chargeback.apply ⟨1⟩ ⟨1, 0, 5, 5, false, [(1, ⟨1, 5⟩)], [1]⟩).2.available = 0 ∧
    histLookup (Chargeback.apply ⟨1⟩ ⟨1, 0, 5, 5, false, [(1, ⟨1, 5⟩)], [1]⟩).2.hist 1 = none ∧
    setContains (Chargeback.apply ⟨1⟩ ⟨1, 0, 5, 5, false, [(1, ⟨1, 5⟩)], [1]⟩).2.disputed_tx 1
      = false :=
  chargeback_spec ⟨1, 0, 5, 5, false, [(1, ⟨1, 5⟩)], [1]⟩ 1 ⟨1, 5⟩ (by decide) (by decide)

/-- Claim C4, counterexample: on a fresh account, depositing 5 under id 1,
disputing 1 and resolving 1 leaves `available = 5` and `total = 5`, while the
original available and total were 0 — so the sequence does not return
available to its original value and does not leave total unchanged, contrary
to the claim as stated. -/
theorem dispute_resolve_not_original :
    (depositDisputeResolve (AccountState.new 1) 5 1).available = 5 ∧
    (AccountState.new 1).available = 0 ∧
    (depositDisputeResolve (AccountState.new 1) 5 1).total = 5 ∧
    (AccountState.new 1).total = 0 := by decide

/-- Claim C4 as amended: for every account, depositing amount `A` with id `T`,
then applying `Dispute(T)`, then `Resolve(T)`, yields available equal to the
original available plus `A` (the available as it stood right after the
deposit), held equal to its original value (0 on a fresh account), total equal
to the original total plus `A` (unchanged by the dispute/resolve round trip),
and `T` no longer present in history, so that a second `Dispute(T)` afterwards
is a no-op. -/
theorem dispute_resolve_round_trip (acc : AccountState) (A : Amount) (T : TxId) :
    (depositDisputeResolve acc A T).available = acc.available + A ∧
    (depositDisputeResolve acc A T).held = acc.held ∧
    (depositDisputeResolve acc A T).total = acc.total + A ∧
    histLookup (depositDisputeResolve acc A T).hist T = none ∧
    Dispute.apply ⟨T⟩ (depositDisputeResolve acc A T) =
      (.ok (), depositDisputeResolve acc A T) := by
  have h1 : (Deposit.apply ⟨T, A⟩ acc).2 =
      { acc with
        available := acc.available + A
        total := acc.total + A
        hist := histInsert acc.hist T ⟨T, A⟩ } := by
    simp [Deposit.apply, AccountState.register_deposit]
  have hlook1 : histLookup (histInsert acc.hist T ⟨T, A⟩) T = some ⟨T, A⟩ :=
    histLookup_histInsert_self _ _ _
  have h2 : (Dispute.apply ⟨T⟩ (Deposit.apply ⟨T, A⟩ acc).2).2 =
      { acc with
        available := acc.available + A - A
        held := acc.held + A
        total := acc.total + A
        hist := histInsert acc.hist T ⟨T, A⟩
        disputed_tx := setInsert acc.disputed_tx T } := by
    rw [h1]
    simp [Dispute.apply, hlook1, AccountState.register_dispute]
  have h3 : depositDisputeResolve acc A T =
      { acc with
        available := acc.available + A - A + A
        held := acc.held + A - A
        total := acc.total + A
        hist := histRemove (histInsert acc.hist T ⟨T, A⟩) T
        disputed_tx := setRemove (setInsert acc.disputed_tx T) T } := by
    unfold depositDisputeResolve
    rw [h2]
    simp [Resolve.apply, setContains_setInsert_self, hlook1,
      AccountState.unregister_dispute]
  rw [h3]
  refine ⟨by ring, by ring, rfl, histLookup_histRemove_self _ _, ?_⟩
  exact Dispute.apply_not_in_hist _ T (histLookup_histRemove_self _ _)

/-- Claim C5: a `Dispute` whose id is absent from the history, and a `Resolve`
or `Chargeback` whose id is not currently in the disputed set, all return
success with the account completely unchanged — every field identical — and
produce no error. -/
theorem ignored_dispute_actions (acc : AccountState) (T : TxId) :
    (histLookup acc.hist T = none → Dispute.apply ⟨T⟩ acc = (.ok (), acc)) ∧
    (setContains acc.disputed_tx T = false →
      Resolve.apply ⟨T⟩ acc = (.ok (), acc) ∧
      Chargeback.apply ⟨T⟩ acc = (.ok (), acc)) := by
  refine ⟨fun hh => ?_, fun hd => ⟨?_, ?_⟩⟩ <;>
    simp [Dispute.apply, Resolve.apply, Chargeback.apply, *]

/-- Witness for claim C5: disputing, resolving or charging back the unknown
id 7 on a fresh account succeeds and changes nothing. -/
theorem ignored_dispute_actions_witness :
    Dispute.apply ⟨7⟩ (AccountState.new 1) = (.ok (), AccountState.new 1) ∧
    Resolve.apply ⟨7⟩ (AccountState.new 1) = (.ok (), AccountState.new 1) ∧
    Chargeback.apply ⟨7⟩ (AccountState.new 1) = (.ok (), AccountState.new 1) :=
  ⟨(ignored_dispute_actions (AccountState.new 1) 7).1 (by decide),
   ((ignored_dispute_actions (AccountState.new 1) 7).2 (by decide)).1,
   ((ignored_dispute_actions (AccountState.new 1) 7).2 (by decide)).2⟩

/-- Claim C6: a `Deposit` or `Withdrawal` event with no amount fails at
creation with the amount-mandatory error (so no account is touched at all),
and a `Withdrawal` whose amount exceeds the available funds fails with the
not-enough-available-funds error, returning the account with every field
identical to its pre-event value. -/
theorem amount_and_funds_errors (T : TxId) (acc : AccountState) (w : Withdrawal)
    (h : acc.available < w.amount) :
    Deposit.create T none = .error .AmountMandatory ∧
    Withdrawal.create T none = .error .AmountMandatory ∧
    w.apply acc = (.error .NotEnoughAvailableFunds, acc) := by
  refine ⟨rfl, rfl, ?_⟩
  simp [Withdrawal.apply, h]

/-- Witness for claim C6: an amount-less deposit and withdrawal both fail
with the amount-mandatory error, and withdrawing 3 units from a fresh,
empty account fails with the not-enough-available-funds error, leaving the
account unchanged. -/
theorem amount_and_funds_errors_witness :
    Deposit.create 1 none = .error .AmountMandatory ∧
    Withdrawal.create 1 none = .error .AmountMandatory ∧
    Withdrawal.apply ⟨3⟩ (AccountState.new 1) =
      (.error .NotEnoughAvailableFunds, AccountState.new 1) :=
  amount_and_funds_errors 1 (AccountState.new 1) ⟨3⟩ (by decide)

/-- Claim C7: replaying the event sequence Deposit(c=1,tx=1,amt=5),
Deposit(c=1,tx=2,amt=4), Withdrawal(c=1,tx=3,amt=9), Deposit(c=2,tx=4,amt=10),
Dispute(c=2,tx=4) from the empty ledger yields account 1 with
available = 0, held = 0, total = 0, locked = false and account 2 with
available = 0, held = 10, total = 10, locked = false. -/
theorem end_to_end_scenario :
    ((runRecords [] c7events).toOption.bind
        (fun led => ledgerLookup led (usizeSub1 1))).map
      (fun a => (a.available, a.held, a.total, a.locked)) = some (0, 0, 0, false) ∧
    ((runRecords [] c7events).toOption.bind
        (fun led => ledgerLookup led (usizeSub1 2))).map
      (fun a => (a.available, a.held, a.total, a.locked)) = some (0, 10, 10, false) := by
  decide

/-- Claim C8: every account reachable from a fresh account by a sequence of
applied records has every disputed id backed by a history entry; and for a
disputed id `T` of such an account, one `Resolve(T)` — and likewise one
`Chargeback(T)` — removes `T` from the history and from the disputed set in
that single step, after which `Dispute(T)` is a no-op, so `T` cannot be
disputed a second time (a later deposit reusing `T` being excluded by the
global uniqueness of transaction ids in the input). -/
theorem dispute_conclusion_atomic (c : ClientId) (rs : List TxRecord)
    (acc' : AccountState) (T : TxId)
    (h : (AccountState.new c).applyRecords rs = .ok acc') :
    acc'.disputedWf ∧
    (setContains acc'.disputed_tx T = true →
      (histLookup (Resolve.apply ⟨T⟩ acc').2.hist T = none ∧
       setContains (Resolve.apply ⟨T⟩ acc').2.disputed_tx T = false ∧
       Dispute.apply ⟨T⟩ (Resolve.apply ⟨T⟩ acc').2 = (.ok (), (Resolve.apply ⟨T⟩ acc').2)) ∧
      (histLookup (Chargeback.apply ⟨T⟩ acc').2.hist T = none ∧
       setContains (Chargeback.apply ⟨T⟩ acc').2.disputed_tx T = false ∧
       Dispute.apply ⟨T⟩ (Chargeback.apply ⟨T⟩ acc').2 =
         (.ok (), (Chargeback.apply ⟨T⟩ acc').2))) := by
  have hwf : acc'.disputedWf :=
    applyRecords_disputedWf rs (AccountState.new c) acc'
      (fun id hid => by cases hid) h
  refine ⟨hwf, fun hT => ?_⟩
  obtain ⟨dep, hdep⟩ : ∃ dep, histLookup acc'.hist T = some dep := by
    have hsome := hwf T hT
    cases hh : histLookup acc'.hist T with
    | some dep => exact ⟨dep, rfl⟩
    | none => rw [hh] at hsome; cases hsome
  have hres : Resolve.apply ⟨T⟩ acc' =
      (.ok (), ({ acc' with
        available := acc'.available + dep.amount
        held := acc'.held - dep.amount } : AccountState).unregister_dispute T) := by
    simp [Resolve.apply, hT, hdep]
  have hcb : Chargeback.apply ⟨T⟩ acc' =
      (.ok (), ({ acc' with
        locked := true
        total := acc'.total - dep.amount
        held := acc'.held - dep.amount } : AccountState).unregister_dispute T) := by
    simp [Chargeback.apply, hT, hdep]
  rw [hres, hcb]
  simp only [AccountState.unregister_dispute]
  refine ⟨⟨?_, ?_, ?_⟩, ?_, ?_, ?_⟩
  · exact histLookup_histRemove_self _ T
  · exact setContains_setRemove_self _ T
  · exact Dispute.apply_not_in_hist _ T (histLookup_histRemove_self _ T)
  · exact histLookup_histRemove_self _ T
  · exact setContains_setRemove_self _ T
  · exact Dispute.apply_not_in_hist _ T (histLookup_histRemove_self _ T)

/-- Witness for claim C8: the account reached by depositing 5 under id 1 and
disputing id 1 is well-formed, and resolving or charging back id 1 clears
both bookkeeping entries at once and makes a re-dispute a no-op. -/
theorem dispute_conclusion_atomic_witness :
    c8acc.disputedWf ∧
    (setContains c8acc.disputed_tx 1 = true →
      (histLookup (Resolve.apply ⟨1⟩ c8acc).2.hist 1 = none ∧
       setContains (Resolve.apply ⟨1⟩ c8acc).2.disputed_tx 1 = false ∧
       Dispute.apply ⟨1⟩ (Resolve.apply ⟨1⟩ c8acc).2 = (.ok (), (Resolve.apply ⟨1⟩ c8acc).2)) ∧
      (histLookup (Chargeback.apply ⟨1⟩ c8acc).2.hist 1 = none ∧
       setContains (Chargeback.apply ⟨1⟩ c8acc).2.disputed_tx 1 = false ∧
       Dispute.apply ⟨1⟩ (Chargeback.apply ⟨1⟩ c8acc).2 =
         (.ok (), (Chargeback.apply ⟨1⟩ c8acc).2))) :=
  dispute_conclusion_atomic 1 [⟨.deposit, 1, 1, some 5⟩, ⟨.dispute, 1, 1, none⟩] c8acc 1 rfl

/-- Claim C9, evaluated against the code: account lookup is NOT total.  The
loop of `rd_from_stdin` indexes the accounts vector at `client as usize - 1`;
for client id 0 (a valid `u16` value) the unsigned subtraction wraps around to
`2^64 - 1`, the index is out of the 65535-slot vector's bounds, and the access
panics — modelled here by `accountSlot 0 = none` and the run failing with a
panic — whereas for the client ids from 1 the lookup does address a valid
slot, creating the account on first reference. -/
theorem account_lookup_client_zero_panics :
    accountSlot 0 = none ∧
    runStep [] ⟨.deposit, 0, 1, some 5⟩ = .error .panic ∧
    accountSlot 1 = some 0 ∧
    accountSlot 65535 = some 65534 :=
  ⟨rfl, rfl, rfl, rfl⟩

/-- Claim C10: applying `Dispute(T)` when `T` is in the history with deposit
`dep` and already in the disputed set re-applies the funds movement —
available decreases by the deposited amount and held increases by it a second
time — while the history and the disputed set are left unchanged. -/
theorem double_dispute (acc : AccountState) (T : TxId) (dep : Deposit)
    (hh : histLookup acc.hist T = some dep)
    (hd : setContains acc.disputed_tx T = true) :
    Dispute.apply ⟨T⟩ acc =
      (.ok (), { acc with
        available := acc.available - dep.amount
        held := acc.held + dep.amount }) := by
  simp [Dispute.apply, hh, AccountState.register_dispute, setInsert_of_contains _ _ hd]

/-- Witness for claim C10: re-disputing the already-disputed 5-unit deposit
with id 1 moves another 5 units from available to held and nothing else. -/
theorem double_dispute_witness :
    Dispute.apply ⟨1⟩ ⟨1, 0, 5, 5, false, [(1, ⟨1, 5⟩)], [1]⟩ =
      (.ok (), { (⟨1, 0, 5, 5, false, [(1, ⟨1, 5⟩)], [1]⟩ : AccountState) with
        available := 0 - 5
        held := 5 + 5 }) :=
  double_dispute ⟨1, 0, 5, 5, false, [(1, ⟨1, 5⟩)], [1]⟩ 1 ⟨1, 5⟩ (by decide) (by decide)
